import Mathlib

/-!
Verification of the bitcoin-map backend ingestion/merge pipeline.

The development shallowly embeds the TypeScript backend:
* `src/backend/src/services/database.ts` — the canonical SQLite store
  (`upsertLocation`, `getAllLocations`, `getLocationCoordinates`,
  `getLocationById`, `getPaymentStats`);
* `src/backend/src/services/btcmap.ts` — the aggregator-feed client
  (`fetchBtcmapLocations`);
* `src/backend/src/services/overpass.ts` — the OSM-query client
  (`OverpassService.buildQuery`, `fetchBitcoinLocations`);
* `src/backend/src/index.ts` — the sync orchestrator
  (`updateBitcoinLocations`).

Modelling conventions:
* JavaScript objects used as string→string tag maps are modelled as
  association lists where the LAST binding for a key wins; building
  `\x7b...a, ...b, k: v\x7d` is then literally `a ++ b ++ [(k, v)]`.
* Coordinates are modelled as rationals (the code does no arithmetic on
  them other than bounding-box midpoints, which is exact).
* The SQLite table is a list of `(id, row)` pairs with at most one row
  per id; the columns `lat`, `lon`, `tags`, `nodes` are `Option`-valued
  at the column level, and the write path enforces the schema's
  `NOT NULL` constraints on `lat`, `lon`, `tags` exactly as SQLite does.
* Network fetches are modelled by passing the fetch outcome
  (`Except`-valued) to the orchestrator.
-/

/-- Tag maps (JS objects of string keys/values) as association lists;
the last binding for a key wins, matching JS object construction order. -/
abbrev TagMap : Type := List (String × String)

/-- Lookup in a JS-object-as-list: the LAST binding for the key wins
(later spreads and explicit keys overwrite earlier ones). -/
def lookupTag : TagMap → String → Option String
  | [], _ => none
  | (k, v) :: rest, key =>
    match lookupTag rest key with
    | some v2 => some v2
    | none => if k = key then some v else none

theorem lookupTag_append (a b : TagMap) (key : String) :
    lookupTag (a ++ b) key = (lookupTag b key).or (lookupTag a key) := by
  induction a with
  | nil =>
    show lookupTag b key = _
    cases lookupTag b key <;> rfl
  | cons p rest ih =>
    obtain ⟨k, v⟩ := p
    show lookupTag (⟨k, v⟩ :: (rest ++ b)) key = _
    simp only [lookupTag, ih]
    cases lookupTag b key <;> cases lookupTag rest key <;> rfl

/-- A geographic point, as in `types/osm.ts` (`GeoPoint`). -/
structure GeoPoint where
  lat : ℚ
  lon : ℚ
deriving DecidableEq

/-- Bounds of a way or relation, as in `types/osm.ts` (`Bounds`). -/
structure Bounds where
  minlon : ℚ
  maxlon : ℚ
  minlat : ℚ
  maxlat : ℚ
deriving DecidableEq

/-- The nested OSM object of an aggregator record (`OSMJson` =
`OSMNode | OSMWay | OSMRelation` in `types/osm.ts`); only the fields read
by `upsertLocation` are retained (`timestamp`, `version`, `changeset`,
`user`, `uid`, relation `members` are never read). -/
inductive OSMJson where
  | node (id : ℕ) (lat lon : ℚ) (tags : TagMap)
  | way (id : ℕ) (nodes : List ℤ) (geometry : Option (List GeoPoint)) (tags : TagMap)
  | relation (id : ℕ) (bounds : Option Bounds) (tags : TagMap)
deriving DecidableEq

/-- The numeric id of the nested OSM object (`osmData.id`). -/
def OSMJson.oid : OSMJson → ℕ
  | .node i _ _ _ => i
  | .way i _ _ _ => i
  | .relation i _ _ => i

/-- The geometry class of the nested OSM object (`osmData.type`). -/
def OSMJson.typeStr : OSMJson → String
  | .node _ _ _ _ => "node"
  | .way _ _ _ _ => "way"
  | .relation _ _ _ => "relation"

/-- The inner tag map of the nested OSM object (`osmData.tags`). -/
def OSMJson.tags : OSMJson → TagMap
  | .node _ _ _ t => t
  | .way _ _ _ t => t
  | .relation _ _ t => t

/-- An aggregator-feed record (`OSMRecord` in `types/osm.ts`): outer
envelope with nested `osm_json` and an outer tag map; `created_at`,
`updated_at`, `deleted_at` are never read by the pipeline. -/
structure OSMRecord where
  id : String
  osm_json : OSMJson
  tags : TagMap
deriving DecidableEq

/-- An OSM-query element (`OverpassElement = OverpassNode | OverpassWay`
in `types/overpass.ts`). -/
inductive OverpassElement where
  | node (id : ℕ) (lat lon : ℚ) (tags : Option TagMap)
  | way (id : ℕ) (nodes : List ℤ) (center : Option GeoPoint) (tags : Option TagMap)
deriving DecidableEq

/-- The union type accepted by `upsertLocation`
(`OverpassElement | OSMRecord`); the code discriminates on the presence
of the `osm_json` field. -/
inductive UpsertElement where
  | overpass (e : OverpassElement)
  | btcmap (r : OSMRecord)
deriving DecidableEq

/-- A stored row of the `locations` table. `lat`, `lon`, `tags`, `nodes`
are `Option`-valued at the column level; the schema constrains the first
three to be `NOT NULL` at write time. -/
structure Row where
  type : String
  lat : Option ℚ
  lon : Option ℚ
  tags : Option TagMap
  nodes : Option (List ℤ)
  source : String
  updated_at : ℕ
deriving DecidableEq

/-- The `locations` table: at most one row per id (`id INTEGER PRIMARY KEY`). -/
abbrev Store : Type := List (ℕ × Row)

/-- Row lookup by primary key (`SELECT ... WHERE id = ?`). -/
def getRow : Store → ℕ → Option Row
  | [], _ => none
  | p :: rest, id => if p.1 = id then some p.2 else getRow rest id

/-- The normalized field values computed by the first half of
`upsertLocation` (database.ts lines 224–286) before the SQL write. -/
structure NormFields where
  id : ℕ
  type : String
  lat : Option ℚ
  lon : Option ℚ
  tags : Option TagMap
  nodes : Option (List ℤ)
deriving DecidableEq

/-- The `payment:bitcoin` flag recomputed for aggregator records
(database.ts lines 245–250). -/
def paymentBitcoinFlag (osmTags elementTags : TagMap) : String :=
  if lookupTag osmTags "payment:bitcoin" = some "yes"
      ∨ lookupTag elementTags "payment:onchain" = some "yes"
      ∨ lookupTag elementTags "currency:XBT" = some "yes"
    then "yes" else "no"

/-- The `payment:lightning` flag recomputed for aggregator records
(database.ts lines 251–255). -/
def paymentLightningFlag (osmTags elementTags : TagMap) : String :=
  if lookupTag osmTags "payment:lightning" = some "yes"
      ∨ lookupTag elementTags "payment:lightning" = some "yes"
    then "yes" else "no"

/-- The merged tag object for an aggregator record (database.ts lines
241–256): inner tags spread first, outer tags spread second, then the
two recomputed payment flags as explicit keys (later bindings win). -/
def mergedTagsOf (r : OSMRecord) : TagMap :=
  r.osm_json.tags ++ r.tags ++
    [("payment:bitcoin", paymentBitcoinFlag r.osm_json.tags r.tags),
     ("payment:lightning", paymentLightningFlag r.osm_json.tags r.tags)]

/-- Normalization: database.ts lines 224–286.  Aggregator records merge
tags and resolve coordinates per geometry class (node: direct; way:
first geometry point if non-empty; relation: bounds midpoint if
present); OSM-query elements keep raw tags, nodes use direct lat/lon,
ways use the optional `center`. -/
def normalizeElement : UpsertElement → NormFields
  | .btcmap r =>
    let tags := some (mergedTagsOf r)
    match r.osm_json with
    | .node i la lo _ => ⟨i, "node", some la, some lo, tags, none⟩
    | .way i ns geom _ =>
      match geom with
      | some (p :: _) => ⟨i, "way", some p.lat, some p.lon, tags, some ns⟩
      | some [] => ⟨i, "way", none, none, tags, some ns⟩
      | none => ⟨i, "way", none, none, tags, some ns⟩
    | .relation i bnds _ =>
      match bnds with
      | some b =>
        ⟨i, "relation", some ((b.minlat + b.maxlat) / 2), some ((b.minlon + b.maxlon) / 2),
          tags, none⟩
      | none => ⟨i, "relation", none, none, tags, none⟩
  | .overpass e =>
    match e with
    | .node i la lo tg => ⟨i, "node", some la, some lo, tg, none⟩
    | .way i ns ctr tg =>
      ⟨i, "way", (ctr.map GeoPoint.lat), (ctr.map GeoPoint.lon), tg, some ns⟩

/-- Insert-or-replace at a primary key: an existing row is replaced in
place, a new row is appended (SQLite `INSERT ... ON CONFLICT(id) DO
UPDATE SET ...`, database.ts lines 288–321). -/
def setRow (s : Store) (id : ℕ) (r : Row) : Store :=
  if s.any (fun p => p.1 = id) then
    s.map (fun p => if p.1 = id then (id, r) else p)
  else
    s ++ [(id, r)]

/-- The SQL write of `upsertLocation` including the schema's `NOT NULL`
constraints on `lat`, `lon` and `tags` (database.ts lines 62–78 and
288–321): a null in any of those columns rejects the whole statement
and writes nothing. -/
def sqlUpsert (s : Store) (n : NormFields) (source : String) (now : ℕ) : Except String Store :=
  match n.lat, n.lon, n.tags with
  | some la, some lo, some tg =>
    .ok (setRow s n.id ⟨n.type, some la, some lo, some tg, n.nodes, source, now⟩)
  | _, _, _ => .error "NOT NULL constraint failed"

/-- `upsertLocation(element, source)` (database.ts lines 220–321), with
the write time `now` made explicit. -/
def upsertLocation (element : UpsertElement) (source : String) (now : ℕ) (s : Store) :
    Except String Store :=
  sqlUpsert s (normalizeElement element) source now

/-- A materialized location as returned by the read accessors. -/
structure Location where
  id : ℕ
  type : String
  lat : Option ℚ
  lon : Option ℚ
  tags : Option TagMap
  source : String
deriving DecidableEq

/-- Projection of a stored row to its read-API shape. -/
def toLocation (p : ℕ × Row) : Location :=
  ⟨p.1, p.2.type, p.2.lat, p.2.lon, p.2.tags, p.2.source⟩

/-- `getAllLocations` (database.ts lines 80–103):
`SELECT id, type, lat, lon, tags, source FROM locations` — every row,
no filter of any kind. -/
def getAllLocations (s : Store) : List Location :=
  s.map toLocation

/-- A coordinate-only projection row. -/
structure LocationCoordinate where
  id : ℕ
  type : String
  lat : Option ℚ
  lon : Option ℚ
deriving DecidableEq

/-- `getLocationCoordinates` (database.ts lines 105–124):
`SELECT id, type, lat, lon FROM locations` — every row, no filter. -/
def getLocationCoordinates (s : Store) : List LocationCoordinate :=
  s.map (fun p => ⟨p.1, p.2.type, p.2.lat, p.2.lon⟩)

/-- `getLocationById` (database.ts lines 126–153): single row by primary
key, `null` when absent. -/
def getLocationById (s : Store) (id : ℕ) : Option Location :=
  (getRow s id).map (fun r => toLocation (id, r))

/-- Splitting lookup over the merged aggregator tag object: the explicit
payment-flag bindings are consulted first, then the outer tags, then the
inner tags. -/
theorem lookupTag_mergedTagsOf (r : OSMRecord) (key : String) :
    lookupTag (mergedTagsOf r) key =
      (lookupTag [("payment:bitcoin", paymentBitcoinFlag r.osm_json.tags r.tags),
                  ("payment:lightning", paymentLightningFlag r.osm_json.tags r.tags)] key).or
        ((lookupTag r.tags key).or (lookupTag r.osm_json.tags key)) := by
  unfold mergedTagsOf
  rw [lookupTag_append, lookupTag_append]

/-- The normalized tag column of an aggregator record is always the
merged tag object. -/
theorem normalize_btcmap_tags (r : OSMRecord) :
    (normalizeElement (.btcmap r)).tags = some (mergedTagsOf r) := by
  obtain ⟨rid, oj, otags⟩ := r
  cases oj with
  | node i la lo t => rfl
  | way i ns geom t =>
    cases geom with
    | none => rfl
    | some g => cases g with
      | nil => rfl
      | cons p rest => rfl
  | relation i bnds t =>
    cases bnds with
    | none => rfl
    | some b => rfl

/-- C1: for every aggregator-feed (btcmap) record normalized by
`upsertLocation`, the stored tag map is the inner `osm_json` tags merged
with the outer record tags (outer winning on key collision), then
`payment:bitcoin` is "yes" iff inner `payment:bitcoin`, outer
`payment:onchain` or outer `currency:XBT` is "yes" (else "no"), and
`payment:lightning` is "yes" iff inner or outer `payment:lightning` is
"yes" (else "no"); both keys are always present. -/
theorem btcmap_payment_flag_recomputation (r : OSMRecord) :
    (normalizeElement (.btcmap r)).tags = some (mergedTagsOf r) ∧
    lookupTag (mergedTagsOf r) "payment:bitcoin" =
      some (if lookupTag r.osm_json.tags "payment:bitcoin" = some "yes"
              ∨ lookupTag r.tags "payment:onchain" = some "yes"
              ∨ lookupTag r.tags "currency:XBT" = some "yes" then "yes" else "no") ∧
    lookupTag (mergedTagsOf r) "payment:lightning" =
      some (if lookupTag r.osm_json.tags "payment:lightning" = some "yes"
              ∨ lookupTag r.tags "payment:lightning" = some "yes" then "yes" else "no") ∧
    ∀ key : String, key ≠ "payment:bitcoin" → key ≠ "payment:lightning" →
      lookupTag (mergedTagsOf r) key = (lookupTag r.tags key).or (lookupTag r.osm_json.tags key) := by
  refine ⟨normalize_btcmap_tags r, ?_, ?_, ?_⟩
  · rw [lookupTag_mergedTagsOf]
    simp [lookupTag, paymentBitcoinFlag]
  · rw [lookupTag_mergedTagsOf]
    simp [lookupTag, paymentLightningFlag]
  · intro key hb hl
    rw [lookupTag_mergedTagsOf]
    have h1 : ("payment:bitcoin" = key) = False := by
      simp [Ne.symm hb]
    have h2 : ("payment:lightning" = key) = False := by
      simp [Ne.symm hl]
    simp [lookupTag, h1, h2]

/-- Sample aggregator record: inner node tags have an `amenity` key, the
outer envelope asserts `payment:onchain = yes`. -/
def sampleBtcmapNode : OSMRecord :=
  ⟨"1", .node 1 2 3 [("amenity", "cafe")], [("payment:onchain", "yes")]⟩

/-- Witness for C1 at a concrete record: outer `payment:onchain = yes`
yields `payment:bitcoin = yes`, and a non-flag key is looked up
outer-then-inner. -/
theorem btcmap_payment_flag_recomputation_witness :
    lookupTag (mergedTagsOf sampleBtcmapNode) "payment:bitcoin" = some "yes" ∧
    lookupTag (mergedTagsOf sampleBtcmapNode) "amenity" = some "cafe" := by
  constructor
  · have h := (btcmap_payment_flag_recomputation sampleBtcmapNode).2.1
    simpa [sampleBtcmapNode, lookupTag] using h
  · exact (btcmap_payment_flag_recomputation sampleBtcmapNode).2.2.2 "amenity"
      (by decide) (by decide)

/-- Replacing the row for `id` in place: lookup at `id` yields the new row. -/
theorem getRow_map_replace_self (s : Store) (id : ℕ) (r : Row)
    (h : s.any (fun p => p.1 = id) = true) :
    getRow (s.map (fun p => if p.1 = id then (id, r) else p)) id = some r := by
  induction s with
  | nil => simp at h
  | cons q rest ih =>
    by_cases hq : q.1 = id
    · simp [getRow, hq]
    · have hrest : rest.any (fun p => p.1 = id) = true := by
        simp only [List.any_cons, Bool.or_eq_true, decide_eq_true_eq] at h
        rcases h with h | h
        · exact absurd h hq
        · simpa using h
      simp only [List.map_cons, if_neg hq, getRow]
      exact ih hrest

/-- Appending a fresh row: lookup at its id finds it when no earlier row
has that id. -/
theorem getRow_append_self (s : Store) (id : ℕ) (r : Row)
    (h : ¬(s.any (fun p => p.1 = id) = true)) :
    getRow (s ++ [(id, r)]) id = some r := by
  induction s with
  | nil => simp [getRow]
  | cons q rest ih =>
    have hq : ¬(q.1 = id) := by
      intro hc
      exact h (by simp [List.any_cons, hc])
    have hrest : ¬(rest.any (fun p => p.1 = id) = true) := by
      intro hc
      exact h (by simp [List.any_cons, hc])
    simp only [List.cons_append, getRow]
    rw [if_neg hq]
    exact ih hrest

/-- In-place replacement at `id` does not change lookups at other ids. -/
theorem getRow_map_replace_other (s : Store) (id j : ℕ) (r : Row) (hj : j ≠ id) :
    getRow (s.map (fun p => if p.1 = id then (id, r) else p)) j = getRow s j := by
  induction s with
  | nil => rfl
  | cons q rest ih =>
    by_cases hq : q.1 = id
    · have h1 : ¬(id = j) := fun hc => hj hc.symm
      have h2 : ¬(q.1 = j) := by
        rw [hq]
        exact h1
      simp only [List.map_cons, if_pos hq, getRow]
      rw [if_neg h1, if_neg h2]
      exact ih
    · simp only [List.map_cons, if_neg hq, getRow]
      by_cases hqj : q.1 = j
      · rw [if_pos hqj, if_pos hqj]
      · rw [if_neg hqj, if_neg hqj]
        exact ih

/-- Appending a row with id `id` does not change lookups at other ids. -/
theorem getRow_append_other (s : Store) (id j : ℕ) (r : Row) (hj : j ≠ id) :
    getRow (s ++ [(id, r)]) j = getRow s j := by
  induction s with
  | nil =>
    have h1 : ¬(id = j) := fun hc => hj hc.symm
    simp [getRow, if_neg h1]
  | cons q rest ih =>
    simp only [List.cons_append, getRow]
    by_cases hqj : q.1 = j
    · rw [if_pos hqj, if_pos hqj]
    · rw [if_neg hqj, if_neg hqj]
      exact ih

/-- Insert-or-replace followed by lookup at the written id yields the
written row. -/
theorem getRow_setRow_self (s : Store) (id : ℕ) (r : Row) :
    getRow (setRow s id r) id = some r := by
  unfold setRow
  by_cases h : s.any (fun p => p.1 = id) = true
  · rw [if_pos h]
    exact getRow_map_replace_self s id r h
  · rw [if_neg h]
    exact getRow_append_self s id r h

/-- Insert-or-replace leaves every other id's lookup unchanged. -/
theorem getRow_setRow_other (s : Store) (id j : ℕ) (r : Row) (hj : j ≠ id) :
    getRow (setRow s id r) j = getRow s j := by
  unfold setRow
  by_cases h : s.any (fun p => p.1 = id) = true
  · rw [if_pos h]
    exact getRow_map_replace_other s id j r hj
  · rw [if_neg h]
    exact getRow_append_other s id j r hj

/-- The row value written by a successful upsert, fully determined by the
normalized element, the source label and the write time. -/
def rowOf (el : UpsertElement) (source : String) (now : ℕ) : Row :=
  ⟨(normalizeElement el).type, (normalizeElement el).lat, (normalizeElement el).lon,
   (normalizeElement el).tags, (normalizeElement el).nodes, source, now⟩

/-- A successful upsert is exactly an insert-or-replace of `rowOf`. -/
theorem upsertLocation_ok_eq (el : UpsertElement) (source : String) (now : ℕ)
    (s s' : Store) (h : upsertLocation el source now s = .ok s') :
    s' = setRow s (normalizeElement el).id (rowOf el source now) := by
  unfold upsertLocation sqlUpsert at h
  rcases hla : (normalizeElement el).lat with _ | la <;>
    rcases hlo : (normalizeElement el).lon with _ | lo <;>
    rcases htg : (normalizeElement el).tags with _ | tg <;>
    rw [hla, hlo, htg] at h <;>
    simp only [] at h
  · exact absurd h (by simp)
  · exact absurd h (by simp)
  · exact absurd h (by simp)
  · exact absurd h (by simp)
  · exact absurd h (by simp)
  · exact absurd h (by simp)
  · exact absurd h (by simp)
  · have h' : setRow s (normalizeElement el).id
        ⟨(normalizeElement el).type, some la, some lo, some tg,
         (normalizeElement el).nodes, source, now⟩ = s' := Except.ok.inj h
    rw [← h']
    unfold rowOf
    rw [hla, hlo, htg]

/-- Row lookup at the upserted id after a successful upsert. -/
theorem getRow_after_upsert (el : UpsertElement) (source : String) (now : ℕ)
    (s s' : Store) (h : upsertLocation el source now s = .ok s') :
    getRow s' (normalizeElement el).id = some (rowOf el source now) := by
  rw [upsertLocation_ok_eq el source now s s' h]
  exact getRow_setRow_self s (normalizeElement el).id (rowOf el source now)

/-- C2: an upsert for an id that succeeds replaces the entire row —
type, lat, lon, tags, nodes, source and updated_at are exactly the new
record's normalized values, independent of whatever row (if any) was
previously stored for that id; no field of the previous row survives. -/
theorem upsert_full_row_replacement (el : UpsertElement) (source : String) (now : ℕ)
    (s s' : Store) (h : upsertLocation el source now s = .ok s') :
    getRow s' (normalizeElement el).id = some (rowOf el source now) :=
  getRow_after_upsert el source now s s' h

/-- Sample element: entity 42 as a node with tag map containing `a`. -/
def nodeTagA : UpsertElement := .overpass (.node 42 1 2 (some [("a", "1")]))

/-- Sample element: entity 42 re-sent as a way with tag map containing `b`. -/
def wayTagB : UpsertElement := .overpass (.way 42 [5] (some ⟨3, 4⟩) (some [("b", "2")]))

/-- The store after upserting `nodeTagA` into an empty store at time 0. -/
def storeAfterNode : Store :=
  [(42, ⟨"node", some 1, some 2, some [("a", "1")], none, "overpass", 0⟩)]

/-- The row produced by upserting `wayTagB` at time 1. -/
def rowWayB : Row := ⟨"way", some 3, some 4, some [("b", "2")], some [5], "overpass", 1⟩

/-- Witness for C2: upserting id 42 first as a node with tags `a:1`,
then as a way with tags `b:2`, leaves a row with type `way` and tags
`b:2` only — key `a` is gone. -/
theorem upsert_full_row_replacement_witness :
    upsertLocation nodeTagA "overpass" 0 [] = .ok storeAfterNode ∧
    upsertLocation wayTagB "overpass" 1 storeAfterNode = .ok [(42, rowWayB)] ∧
    getRow [(42, rowWayB)] 42 = some rowWayB ∧
    rowWayB.type = "way" ∧
    lookupTag (rowWayB.tags.getD []) "b" = some "2" ∧
    lookupTag (rowWayB.tags.getD []) "a" = none := by
  refine ⟨rfl, rfl, ?_, rfl, rfl, rfl⟩
  exact upsert_full_row_replacement wayTagB "overpass" 1 storeAfterNode [(42, rowWayB)] rfl

/-- C6: upsert is idempotent — after upserting the same element twice
with identical content, the stored row carries exactly the same values
as after the first upsert except that `updated_at` advances to the
second write time, and every other row is untouched. -/
theorem upsert_idempotent (el : UpsertElement) (source : String) (t1 t2 : ℕ)
    (s s1 s2 : Store)
    (h1 : upsertLocation el source t1 s = .ok s1)
    (h2 : upsertLocation el source t2 s1 = .ok s2) :
    getRow s1 (normalizeElement el).id = some (rowOf el source t1) ∧
    getRow s2 (normalizeElement el).id = some { rowOf el source t1 with updated_at := t2 } ∧
    ∀ j : ℕ, j ≠ (normalizeElement el).id → getRow s2 j = getRow s1 j := by
  refine ⟨getRow_after_upsert el source t1 s s1 h1, ?_, ?_⟩
  · exact getRow_after_upsert el source t2 s1 s2 h2
  · intro j hj
    rw [upsertLocation_ok_eq el source t2 s1 s2 h2]
    exact getRow_setRow_other s1 (normalizeElement el).id j (rowOf el source t2) hj

/-- The store after upserting `nodeTagA` a second time at time 1. -/
def storeAfterNodeAgain : Store :=
  [(42, ⟨"node", some 1, some 2, some [("a", "1")], none, "overpass", 1⟩)]

/-- Witness for C6 at a concrete element: the second identical upsert
only advances `updated_at`, and an unrelated id is unchanged. -/
theorem upsert_idempotent_witness :
    getRow storeAfterNodeAgain 42 =
      some { (⟨"node", some 1, some 2, some [("a", "1")], none, "overpass", 0⟩ : Row) with
             updated_at := 1 } ∧
    getRow storeAfterNodeAgain 7 = getRow storeAfterNode 7 := by
  have h := upsert_idempotent nodeTagA "overpass" 0 1 [] storeAfterNode storeAfterNodeAgain rfl rfl
  exact ⟨h.2.1, h.2.2 7 (by decide)⟩

/-- No row for id `i` means every stored pair has a different id. -/
theorem getRow_none_forall (s : Store) (i : ℕ) (h : getRow s i = none) :
    ∀ p ∈ s, p.1 ≠ i := by
  induction s with
  | nil => intro p hp; simp at hp
  | cons q rest ih =>
    intro p hp
    rw [getRow] at h
    by_cases hq : q.1 = i
    · rw [if_pos hq] at h
      exact absurd h (by simp)
    · rw [if_neg hq] at h
      rcases List.mem_cons.mp hp with hc | hc
      · rw [hc]; exact hq
      · exact ih h p hc

/-- Sample aggregator way record with an absent geometry list. -/
def wayNoGeometry : OSMRecord := ⟨"7", .way 7 [1, 2] none [("name", "Area")], []⟩

/-- Counterexample to C3: the aggregator way record without geometry does
normalize to `lat = null, lon = null`, but the upsert is then REJECTED by
the `lat REAL NOT NULL` constraint — no row is stored, so the record is
not retrievable via `byId` afterwards (the claim asserts the row is
stored and retrievable). -/
theorem way_centroid_fallback_counterexample :
    (normalizeElement (.btcmap wayNoGeometry)).lat = none ∧
    (normalizeElement (.btcmap wayNoGeometry)).lon = none ∧
    upsertLocation (.btcmap wayNoGeometry) "btcmap" 0 [] = .error "NOT NULL constraint failed" ∧
    getLocationById [] 7 = none :=
  ⟨rfl, rfl, rfl, rfl⟩

/-- C3 (amended): an aggregator way record whose geometry list is empty
or absent normalizes to `lat = null, lon = null`; the upsert is then
rejected by the schema's NOT NULL constraint and writes no row, so when
no row for that id previously exists the record is absent from `all()`,
`coordinatesOnly()` and `byId` alike. -/
theorem way_centroid_fallback_amended (r : OSMRecord) (source : String) (now : ℕ)
    (s : Store) (i : ℕ) (ns : List ℤ) (g : Option (List GeoPoint)) (t : TagMap)
    (hway : r.osm_json = .way i ns g t)
    (hg : g = none ∨ g = some []) :
    (normalizeElement (.btcmap r)).lat = none ∧
    (normalizeElement (.btcmap r)).lon = none ∧
    upsertLocation (.btcmap r) source now s = .error "NOT NULL constraint failed" ∧
    (getRow s i = none →
      getLocationById s i = none ∧
      (∀ loc ∈ getAllLocations s, loc.id ≠ i) ∧
      (∀ c ∈ getLocationCoordinates s, c.id ≠ i)) := by
  have hnorm : (normalizeElement (.btcmap r)).lat = none ∧
      (normalizeElement (.btcmap r)).lon = none := by
    rcases hg with hg | hg <;> subst hg <;> simp [normalizeElement, hway]
  refine ⟨hnorm.1, hnorm.2, ?_, ?_⟩
  · unfold upsertLocation sqlUpsert
    rw [hnorm.1]
  · intro hnone
    refine ⟨by simp [getLocationById, hnone], ?_, ?_⟩
    · intro loc hloc
      rcases List.mem_map.mp hloc with ⟨p, hp, hploc⟩
      rw [← hploc]
      exact getRow_none_forall s i hnone p hp
    · intro c hc
      rcases List.mem_map.mp hc with ⟨p, hp, hpc⟩
      rw [← hpc]
      exact getRow_none_forall s i hnone p hp

/-- Witness for the amended C3 at a concrete record and empty store. -/
theorem way_centroid_fallback_amended_witness :
    (normalizeElement (.btcmap wayNoGeometry)).lat = none ∧
    upsertLocation (.btcmap wayNoGeometry) "btcmap" 5 [] = .error "NOT NULL constraint failed" ∧
    getLocationById [] 7 = none := by
  have h := way_centroid_fallback_amended wayNoGeometry "btcmap" 5 [] 7 [1, 2] none
    [("name", "Area")] rfl (Or.inl rfl)
  exact ⟨h.1, h.2.2.1, (h.2.2.2 rfl).1⟩

/-- An element's normalized fields satisfy the NOT NULL schema
constraints (lat, lon, tags all present). -/
def normOk (el : UpsertElement) : Bool :=
  (normalizeElement el).lat.isSome && (normalizeElement el).lon.isSome &&
    (normalizeElement el).tags.isSome

/-- A constraint-satisfying element upserts successfully, producing an
insert-or-replace of its normalized row. -/
theorem upsertLocation_of_normOk (el : UpsertElement) (source : String) (now : ℕ)
    (s : Store) (h : normOk el = true) :
    upsertLocation el source now s =
      .ok (setRow s (normalizeElement el).id (rowOf el source now)) := by
  unfold normOk at h
  unfold upsertLocation sqlUpsert rowOf
  rcases hla : (normalizeElement el).lat with _ | la <;>
    rcases hlo : (normalizeElement el).lon with _ | lo <;>
    rcases htg : (normalizeElement el).tags with _ | tg <;>
    simp_all

/-- A constraint-violating element is rejected with the NOT NULL error
and the store is not offered a new state. -/
theorem upsertLocation_of_not_normOk (el : UpsertElement) (source : String) (now : ℕ)
    (s : Store) (h : normOk el = false) :
    upsertLocation el source now s = .error "NOT NULL constraint failed" := by
  unfold normOk at h
  unfold upsertLocation sqlUpsert
  rcases hla : (normalizeElement el).lat with _ | la <;>
    rcases hlo : (normalizeElement el).lon with _ | lo <;>
    rcases htg : (normalizeElement el).tags with _ | tg <;>
    simp_all

/-- The per-element upsert loop of the sync orchestrator (index.ts,
`updateBitcoinLocations`): each element is tried inside its own
try/catch, a failure is logged and skipped, and the success counter is
incremented only on success.  Returns the final store and the success
count. -/
def upsertBatch : List UpsertElement → String → ℕ → Store → Store × ℕ
  | [], _, _, s => (s, 0)
  | e :: rest, source, now, s =>
    match upsertLocation e source now s with
    | .ok s' =>
      let p := upsertBatch rest source now s'
      (p.1, p.2 + 1)
    | .error _ => upsertBatch rest source now s

/-- C4: a failing element in a batch is caught and skipped — with a
batch of three where the second element violates the schema, the pass
does not abort: the success count is 2 and the rows for the first and
third elements are both present afterwards. -/
theorem partial_batch_resilience (s : Store) (e1 e2 e3 : UpsertElement)
    (source : String) (now : ℕ)
    (h1 : normOk e1 = true) (h2 : normOk e2 = false) (h3 : normOk e3 = true)
    (hne : (normalizeElement e3).id ≠ (normalizeElement e1).id) :
    (upsertBatch [e1, e2, e3] source now s).2 = 2 ∧
    getRow (upsertBatch [e1, e2, e3] source now s).1 (normalizeElement e1).id =
      some (rowOf e1 source now) ∧
    getRow (upsertBatch [e1, e2, e3] source now s).1 (normalizeElement e3).id =
      some (rowOf e3 source now) := by
  have he1 := upsertLocation_of_normOk e1 source now s h1
  have he2 := upsertLocation_of_not_normOk e2 source now
    (setRow s (normalizeElement e1).id (rowOf e1 source now)) h2
  have he3 := upsertLocation_of_normOk e3 source now
    (setRow s (normalizeElement e1).id (rowOf e1 source now)) h3
  refine ⟨?_, ?_, ?_⟩ <;> simp only [upsertBatch, he1, he2, he3]
  · rw [getRow_setRow_other _ _ _ _ (Ne.symm hne)]
    exact getRow_setRow_self s (normalizeElement e1).id (rowOf e1 source now)
  · exact getRow_setRow_self _ (normalizeElement e3).id (rowOf e3 source now)

/-- Batch element 1: a valid node. -/
def batchE1 : UpsertElement := .overpass (.node 1 10 20 (some [("n", "x")]))

/-- Batch element 2: an aggregator way without geometry (fails the
NOT NULL constraint). -/
def batchE2 : UpsertElement := .btcmap wayNoGeometry

/-- Batch element 3: another valid node. -/
def batchE3 : UpsertElement := .overpass (.node 3 30 40 (some []))

/-- Witness for C4 at a concrete 3-element batch whose middle element
fails: rows 1 and 3 are present and two upserts succeeded. -/
theorem partial_batch_resilience_witness :
    (upsertBatch [batchE1, batchE2, batchE3] "overpass" 0 []).2 = 2 ∧
    getRow (upsertBatch [batchE1, batchE2, batchE3] "overpass" 0 []).1 1 =
      some (rowOf batchE1 "overpass" 0) ∧
    getRow (upsertBatch [batchE1, batchE2, batchE3] "overpass" 0 []).1 3 =
      some (rowOf batchE3 "overpass" 0) :=
  partial_batch_resilience [] batchE1 batchE2 batchE3 "overpass" 0 rfl rfl rfl (by decide)

/-- Outcome of one sync pass: either it completed, with per-source
received/upserted counts, or it scheduled a full retry of the whole pass
after `delayMs` milliseconds (`setTimeout(updateBitcoinLocations,
5 * 60 * 1000)` in the catch block of index.ts). -/
inductive SyncOutcome where
  | completed (overpassReceived overpassUpserted btcmapReceived btcmapUpserted : ℕ)
  | retryScheduled (delayMs : ℕ)
deriving DecidableEq

/-- Result of one run of `updateBitcoinLocations`: the store afterwards,
the outcome, and whether the aggregator-feed (BTCMap) fetch was ever
invoked during the pass. -/
structure SyncResult where
  store : Store
  outcome : SyncOutcome
  btcmapFetchInvoked : Bool
deriving DecidableEq

/-- The sync orchestrator `updateBitcoinLocations` (index.ts lines
59–122).  The two whole-source fetch outcomes are passed in as values;
the single try/catch wrapping the whole body means a throwing fetch
aborts the pass at that point and schedules a full retry after
`5 * 60 * 1000` ms, while per-element upsert failures are caught inside
the loops (`upsertBatch`) and never reach the outer catch. -/
def updateBitcoinLocations (overpassFetch : Except String (List OverpassElement))
    (btcmapFetch : Except String (List OSMRecord)) (now : ℕ) (s : Store) : SyncResult :=
  match overpassFetch with
  | .error _ => ⟨s, .retryScheduled (5 * 60 * 1000), false⟩
  | .ok elements =>
    let p1 := upsertBatch (elements.map UpsertElement.overpass) "overpass" now s
    match btcmapFetch with
    | .error _ => ⟨p1.1, .retryScheduled (5 * 60 * 1000), true⟩
    | .ok records =>
      let p2 := upsertBatch (records.map UpsertElement.btcmap) "btcmap" now p1.1
      ⟨p2.1, .completed elements.length p1.2 records.length p2.2, true⟩

/-- C5: a throwing whole-source fetch aborts the pass and schedules a
full retry after the fixed 5-minute (300000 ms) delay — if the
OSM-query (Overpass) fetch throws, the aggregator (BTCMap) fetch is
never invoked and the store is untouched; if the BTCMap fetch throws the
pass aborts there with the same retry delay; and whenever both fetches
succeed the pass always completes — per-element upsert failures never
trigger the abort-and-retry. -/
theorem fetch_failure_abort_and_retry :
    (∀ (msg : String) (bf : Except String (List OSMRecord)) (now : ℕ) (s : Store),
      updateBitcoinLocations (.error msg) bf now s =
        ⟨s, .retryScheduled 300000, false⟩) ∧
    (∀ (els : List OverpassElement) (msg : String) (now : ℕ) (s : Store),
      (updateBitcoinLocations (.ok els) (.error msg) now s).outcome =
          .retryScheduled 300000 ∧
        (updateBitcoinLocations (.ok els) (.error msg) now s).btcmapFetchInvoked = true) ∧
    (∀ (els : List OverpassElement) (recs : List OSMRecord) (now : ℕ) (s : Store),
      (updateBitcoinLocations (.ok els) (.ok recs) now s).outcome =
        .completed els.length
          (upsertBatch (els.map UpsertElement.overpass) "overpass" now s).2
          recs.length
          (upsertBatch (recs.map UpsertElement.btcmap) "btcmap" now
            (upsertBatch (els.map UpsertElement.overpass) "overpass" now s).1).2) := by
  refine ⟨fun msg bf now s => rfl, fun els msg now s => ⟨rfl, rfl⟩, fun els recs now s => rfl⟩

/-- The decoded JSON body of the aggregator-feed response: either an
array of records or something that is not an array
(`Array.isArray(data)` fails). -/
inductive JsonBody where
  | arr (records : List OSMRecord)
  | notArray
deriving DecidableEq

/-- The HTTP response observed by `fetchBtcmapLocations`. -/
structure HttpResponse where
  ok : Bool
  status : ℕ
  statusText : String
  body : JsonBody
deriving DecidableEq

/-- `fetchBtcmapLocations` (btcmap.ts): throws when the HTTP status is
not ok or the decoded body is not an array, otherwise returns the
decoded array unchanged.  The catch block only logs and rethrows. -/
def fetchBtcmapLocations (response : HttpResponse) : Except String (List OSMRecord) :=
  if response.ok = false then
    .error ("Failed to fetch from btcmap.org: " ++ toString response.status ++ " "
      ++ response.statusText)
  else
    match response.body with
    | .arr records => .ok records
    | .notArray => .error "Invalid data format from btcmap.org: expected an array"

/-- C8: the aggregator-feed fetch is all-or-nothing — it errors exactly
when the HTTP status is not success or the decoded body is not an array,
returning no partial data, and on success returns the full decoded array
unchanged. -/
theorem btcmap_fetch_all_or_nothing :
    (∀ resp : HttpResponse, resp.ok = false →
      fetchBtcmapLocations resp =
        .error ("Failed to fetch from btcmap.org: " ++ toString resp.status ++ " "
          ++ resp.statusText)) ∧
    (∀ resp : HttpResponse, resp.ok = true → resp.body = .notArray →
      fetchBtcmapLocations resp =
        .error "Invalid data format from btcmap.org: expected an array") ∧
    (∀ (resp : HttpResponse) (recs : List OSMRecord), resp.ok = true → resp.body = .arr recs →
      fetchBtcmapLocations resp = .ok recs) := by
  refine ⟨?_, ?_, ?_⟩
  · intro resp h
    simp [fetchBtcmapLocations, h]
  · intro resp hok hbody
    simp [fetchBtcmapLocations, hok, hbody]
  · intro resp recs hok hbody
    simp [fetchBtcmapLocations, hok, hbody]

/-- Witness for C8 at concrete responses: a 500 response errors, a
success response with an array body returns the array unchanged. -/
theorem btcmap_fetch_all_or_nothing_witness :
    fetchBtcmapLocations ⟨false, 500, "Server Error", .arr []⟩ =
      .error ("Failed to fetch from btcmap.org: " ++ toString 500 ++ " " ++ "Server Error") ∧
    fetchBtcmapLocations ⟨true, 200, "OK", .notArray⟩ =
      .error "Invalid data format from btcmap.org: expected an array" ∧
    fetchBtcmapLocations ⟨true, 200, "OK", .arr [wayNoGeometry]⟩ = .ok [wayNoGeometry] :=
  ⟨btcmap_fetch_all_or_nothing.1 ⟨false, 500, "Server Error", .arr []⟩ rfl,
   btcmap_fetch_all_or_nothing.2.1 ⟨true, 200, "OK", .notArray⟩ rfl rfl,
   btcmap_fetch_all_or_nothing.2.2 ⟨true, 200, "OK", .arr [wayNoGeometry]⟩ [wayNoGeometry] rfl rfl⟩

/-- Every row stored in `s` has non-null lat, lon and tags columns. -/
def storeNonNull (s : Store) : Prop :=
  ∀ p ∈ s, (p : ℕ × Row).2.lat.isSome = true ∧ p.2.lon.isSome = true ∧ p.2.tags.isSome = true

/-- A member of an insert-or-replace result is the written row or an old
row. -/
theorem mem_setRow (s : Store) (id : ℕ) (r : Row) (p : ℕ × Row) (hp : p ∈ setRow s id r) :
    p = (id, r) ∨ p ∈ s := by
  unfold setRow at hp
  by_cases h : s.any (fun q => q.1 = id) = true
  · rw [if_pos h] at hp
    rcases List.mem_map.mp hp with ⟨q, hq, hqp⟩
    by_cases hqi : q.1 = id
    · rw [if_pos hqi] at hqp
      left
      exact hqp.symm
    · rw [if_neg hqi] at hqp
      right
      rw [← hqp]
      exact hq
  · rw [if_neg h] at hp
    rcases List.mem_append.mp hp with hc | hc
    · right
      exact hc
    · left
      simpa using hc

/-- A successful upsert implies the element satisfied the NOT NULL
constraints. -/
theorem normOk_of_upsert_ok (el : UpsertElement) (source : String) (now : ℕ)
    (s s' : Store) (h : upsertLocation el source now s = .ok s') : normOk el = true := by
  unfold upsertLocation sqlUpsert at h
  unfold normOk
  rcases hla : (normalizeElement el).lat with _ | la <;>
    rcases hlo : (normalizeElement el).lon with _ | lo <;>
    rcases htg : (normalizeElement el).tags with _ | tg <;>
    simp_all

/-- C9: the schema's NOT NULL constraints on lat, lon, tags reject every
upsert whose normalized value is null in one of those columns (in
particular aggregator ways without geometry, aggregator relations
without bounds, OSM-query ways without a center, and OSM-query elements
without tags), writing no row; consequently `storeNonNull` is an
invariant of the store, and `getAllLocations`/`getLocationCoordinates`
can and do select every stored row with no coordinate filter. -/
theorem not_null_constraint_invariant :
    (∀ (el : UpsertElement) (source : String) (now : ℕ) (s : Store),
      ((normalizeElement el).lat = none ∨ (normalizeElement el).lon = none ∨
        (normalizeElement el).tags = none) →
      upsertLocation el source now s = .error "NOT NULL constraint failed") ∧
    (∀ (r : OSMRecord) (i : ℕ) (ns : List ℤ) (t : TagMap),
      (r.osm_json = .way i ns none t ∨ r.osm_json = .way i ns (some []) t) →
      (normalizeElement (.btcmap r)).lat = none ∧ (normalizeElement (.btcmap r)).lon = none) ∧
    (∀ (r : OSMRecord) (i : ℕ) (t : TagMap), r.osm_json = .relation i none t →
      (normalizeElement (.btcmap r)).lat = none ∧ (normalizeElement (.btcmap r)).lon = none) ∧
    (∀ (i : ℕ) (ns : List ℤ) (tg : Option TagMap),
      (normalizeElement (.overpass (.way i ns none tg))).lat = none ∧
      (normalizeElement (.overpass (.way i ns none tg))).lon = none) ∧
    (∀ (i : ℕ) (la lo : ℚ), (normalizeElement (.overpass (.node i la lo none))).tags = none) ∧
    (∀ (i : ℕ) (ns : List ℤ) (c : Option GeoPoint),
      (normalizeElement (.overpass (.way i ns c none))).tags = none) ∧
    storeNonNull [] ∧
    (∀ (el : UpsertElement) (source : String) (now : ℕ) (s s' : Store),
      storeNonNull s → upsertLocation el source now s = .ok s' → storeNonNull s') ∧
    (∀ s : Store, storeNonNull s →
      (getAllLocations s).length = s.length ∧
      (getLocationCoordinates s).length = s.length ∧
      ∀ loc ∈ getAllLocations s,
        loc.lat.isSome = true ∧ loc.lon.isSome = true ∧ loc.tags.isSome = true) := by
  refine ⟨?_, ?_, ?_, ?_, ?_, ?_, ?_, ?_, ?_⟩
  · intro el source now s h
    unfold upsertLocation sqlUpsert
    rcases hla : (normalizeElement el).lat with _ | la <;>
      rcases hlo : (normalizeElement el).lon with _ | lo <;>
      rcases htg : (normalizeElement el).tags with _ | tg <;>
      simp_all
  · intro r i ns t h
    rcases h with h | h <;> simp [normalizeElement, h]
  · intro r i t h
    simp [normalizeElement, h]
  · intro i ns tg
    simp [normalizeElement]
  · intro i la lo
    simp [normalizeElement]
  · intro i ns c
    simp [normalizeElement]
  · intro p hp
    exact absurd hp (List.not_mem_nil p)
  · intro el source now s s' hs h
    have hok := normOk_of_upsert_ok el source now s s' h
    rw [upsertLocation_ok_eq el source now s s' h]
    intro p hp
    rcases mem_setRow s (normalizeElement el).id (rowOf el source now) p hp with hc | hc
    · rw [hc]
      unfold normOk at hok
      simp only [Bool.and_eq_true] at hok
      exact ⟨hok.1.1, hok.1.2, hok.2⟩
    · exact hs p hc
  · intro s hs
    refine ⟨by simp [getAllLocations], by simp [getLocationCoordinates], ?_⟩
    intro loc hloc
    rcases List.mem_map.mp hloc with ⟨p, hp, hploc⟩
    rw [← hploc]
    exact hs p hp

/-- Witness for C9: the concrete geometry-less aggregator way is
rejected against a concrete non-empty store, and the unfiltered read
accessor returns every row of that store. -/
theorem not_null_constraint_invariant_witness :
    upsertLocation (.btcmap wayNoGeometry) "btcmap" 1 storeAfterNode =
      .error "NOT NULL constraint failed" ∧
    (getAllLocations storeAfterNode).length = storeAfterNode.length := by
  refine ⟨not_null_constraint_invariant.1 (.btcmap wayNoGeometry) "btcmap" 1 storeAfterNode
    (Or.inl rfl), ?_⟩
  have hs : storeNonNull storeAfterNode := by
    intro p hp
    simp only [storeAfterNode, List.mem_singleton] at hp
    rw [hp]
    exact ⟨rfl, rfl, rfl⟩
  exact (not_null_constraint_invariant.2.2.2.2.2.2.2.2 storeAfterNode hs).1

/-- A type string cannot test equal to both "node" and "way". -/
theorem type_not_both (t : String) : ¬((t == "node") = true ∧ (t == "way") = true) := by
  rintro ⟨h1, h2⟩
  have e1 : t = "node" := by simpa using h1
  have e2 : t = "way" := by simpa using h2
  rw [e1] at e2
  exact absurd e2 (by decide)

/-- The node and way counters together never exceed the row count. -/
theorem countP_nodes_ways_le (s : Store) :
    s.countP (fun p => p.2.type == "node") + s.countP (fun p => p.2.type == "way") ≤
      s.length := by
  induction s with
  | nil => simp
  | cons q rest ih =>
    simp only [List.countP_cons, List.length_cons]
    by_cases hn : (q.2.type == "node") = true <;> by_cases hw : (q.2.type == "way") = true
    · exact absurd ⟨hn, hw⟩ (type_not_both q.2.type)
    · simp [hn, hw]; omega
    · simp [hn, hw]; omega
    · simp [hn, hw]; omega

/-- With a relation row present, the node and way counters together are
strictly below the row count. -/
theorem countP_nodes_ways_lt (s : Store) (p0 : ℕ × Row) (hp : p0 ∈ s)
    (hrel : p0.2.type = "relation") :
    s.countP (fun p => p.2.type == "node") + s.countP (fun p => p.2.type == "way") <
      s.length := by
  induction s with
  | nil => cases hp
  | cons q rest ih =>
    simp only [List.countP_cons, List.length_cons]
    rcases List.mem_cons.mp hp with hq | hq
    · have hqt : q.2.type = "relation" := by rw [← hq]; exact hrel
      have hn : ¬((q.2.type == "node") = true) := by rw [hqt]; decide
      have hw : ¬((q.2.type == "way") = true) := by rw [hqt]; decide
      have hle := countP_nodes_ways_le rest
      simp [hn, hw]; omega
    · have hlt := ih hq
      by_cases hn : (q.2.type == "node") = true <;> by_cases hw : (q.2.type == "way") = true
      · exact absurd ⟨hn, hw⟩ (type_not_both q.2.type)
      · simp [hn, hw]; omega
      · simp [hn, hw]; omega
      · simp [hn, hw]; omega

/-- The aggregate row statistics (`getLocationStats`, database.ts lines
169–191): `COUNT(*)`, and conditional sums counting only rows with type
`node` resp. `way`. -/
structure LocationStats where
  total_locations : ℕ
  nodes : ℕ
  ways : ℕ
deriving DecidableEq

/-- `getLocationStats` (database.ts lines 169–191). -/
def getLocationStats (s : Store) : LocationStats :=
  ⟨s.length, s.countP (fun p => p.2.type == "node"), s.countP (fun p => p.2.type == "way")⟩

/-- `getCountryStats` (database.ts lines 193–218): group rows by the
`addr:country` tag value, counting rows per country (rows without the
tag are excluded; result ordering is irrelevant here). -/
def getCountryStats (s : Store) : List (String × ℕ) :=
  let cs := s.filterMap (fun p => p.2.tags.bind (fun tg => lookupTag tg "addr:country"))
  cs.dedup.map (fun c => (c, cs.count c))

/-- The stats payload of `getPaymentStats` (database.ts lines 155–167),
with `by_type` flattened into the `nodes`/`ways` fields. -/
structure PaymentStats where
  total_locations : ℕ
  nodes : ℕ
  ways : ℕ
  countries : List (String × ℕ)
deriving DecidableEq

/-- `getPaymentStats` (database.ts lines 155–167). -/
def getPaymentStats (s : Store) : PaymentStats :=
  ⟨(getLocationStats s).total_locations, (getLocationStats s).nodes,
   (getLocationStats s).ways, getCountryStats s⟩

/-- C10: a stored row of type `relation` is counted in
`total_locations` but in neither the `nodes` nor the `ways` counter, so
`nodes + ways ≤ total_locations` for every store state, strictly when a
relation row exists. -/
theorem relation_rows_total_only (s : Store) :
    (getPaymentStats s).nodes + (getPaymentStats s).ways ≤
        (getPaymentStats s).total_locations ∧
    ((∃ p ∈ s, (p : ℕ × Row).2.type = "relation") →
      (getPaymentStats s).nodes + (getPaymentStats s).ways <
        (getPaymentStats s).total_locations) := by
  constructor
  · simpa [getPaymentStats, getLocationStats] using countP_nodes_ways_le s
  · rintro ⟨p0, hp, hrel⟩
    simpa [getPaymentStats, getLocationStats] using countP_nodes_ways_lt s p0 hp hrel

/-- A store holding one node row and one relation row. -/
def storeWithRelation : Store :=
  [(1, ⟨"node", some 1, some 2, some [], none, "overpass", 0⟩),
   (2, ⟨"relation", some 3, some 4, some [], none, "btcmap", 0⟩)]

/-- Witness for C10 at a concrete store containing a relation row:
nodes + ways is strictly below the total. -/
theorem relation_rows_total_only_witness :
    (getPaymentStats storeWithRelation).nodes + (getPaymentStats storeWithRelation).ways <
      (getPaymentStats storeWithRelation).total_locations :=
  (relation_rows_total_only storeWithRelation).2
    ⟨(2, ⟨"relation", some 3, some 4, some [], none, "btcmap", 0⟩),
     List.Mem.tail _ (List.Mem.head _), rfl⟩

/-- A bounding box for the Overpass query (`OverpassConfig.boundingBox`
in overpass.ts).  The query builder only ever interpolates the four
coordinates into the query string, so they are modelled by their decimal
renderings. -/
structure BoundingBox where
  south : String
  west : String
  north : String
  east : String
deriving DecidableEq

/-- `OverpassConfig` (overpass.ts): all fields optional. -/
structure OverpassConfig where
  timeout : Option ℕ := none
  maxsize : Option ℕ := none
  boundingBox : Option BoundingBox := none
deriving DecidableEq

/-- `DEFAULT_TIMEOUT` (seconds) in overpass.ts. -/
def DEFAULT_TIMEOUT : ℕ := 180

/-- `DEFAULT_MAXSIZE` (bytes) in overpass.ts. -/
def DEFAULT_MAXSIZE : ℕ := 1073741824

/-- JavaScript `value || fallback` on an optional number: `undefined`
and `0` are falsy. -/
def jsOrNat (value : Option ℕ) (fallback : ℕ) : ℕ :=
  match value with
  | none => fallback
  | some n => if n = 0 then fallback else n

/-- `OverpassService.buildQuery` (overpass.ts lines 150–171). -/
def buildQuery (config : OverpassConfig) : String :=
  let timeout := jsOrNat config.timeout DEFAULT_TIMEOUT
  let maxsize := jsOrNat config.maxsize DEFAULT_MAXSIZE
  let baseQuery := "[out:json][timeout:" ++ toString timeout ++ "][maxsize:"
    ++ toString maxsize ++ "];"
  let filters : List String :=
    match config.boundingBox with
    | some bb =>
      let area := "(" ++ bb.south ++ "," ++ bb.west ++ "," ++ bb.north ++ ","
        ++ bb.east ++ ")"
      ["node[\"payment:bitcoin\"=\"yes\"]" ++ area ++ ";",
       "way[\"payment:bitcoin\"=\"yes\"]" ++ area ++ ";",
       "relation[\"payment:bitcoin\"=\"yes\"]" ++ area ++ ";"]
    | none =>
      ["node[\"payment:bitcoin\"=\"yes\"];",
       "way[\"payment:bitcoin\"=\"yes\"];",
       "relation[\"payment:bitcoin\"=\"yes\"];"]
  baseQuery ++ "(" ++ String.join filters ++ ");out center;"

/-- The request-level timeout in milliseconds used by
`fetchBitcoinLocations` (overpass.ts line 184):
`(config?.timeout || DEFAULT_TIMEOUT) * 1000`. -/
def overpassRequestTimeoutMs (config : Option OverpassConfig) : ℕ :=
  (jsOrNat (config.bind OverpassConfig.timeout) DEFAULT_TIMEOUT) * 1000

/-- `needle` occurs inside `hay` as a contiguous substring. -/
def containsStr (hay needle : String) : Prop :=
  ∃ pre post, hay = pre ++ needle ++ post

/-- C7: the built Overpass query embeds the timeout (default 180 s) and
maxsize (default 1073741824 bytes) budgets; with a bounding box each of
the node/way/relation `payment:bitcoin=yes` filters is restricted to
that box, otherwise all three filters are global; and the HTTP request
timeout is the configured (or default) timeout times 1000 ms. -/
theorem overpass_query_budgets (cfg : OverpassConfig) :
    containsStr (buildQuery cfg)
      ("[timeout:" ++ toString (jsOrNat cfg.timeout DEFAULT_TIMEOUT) ++ "]") ∧
    containsStr (buildQuery cfg)
      ("[maxsize:" ++ toString (jsOrNat cfg.maxsize DEFAULT_MAXSIZE) ++ "]") ∧
    (cfg.timeout = none → jsOrNat cfg.timeout DEFAULT_TIMEOUT = 180) ∧
    (cfg.maxsize = none → jsOrNat cfg.maxsize DEFAULT_MAXSIZE = 1073741824) ∧
    (cfg.boundingBox = none →
      buildQuery cfg =
        "[out:json][timeout:" ++ toString (jsOrNat cfg.timeout DEFAULT_TIMEOUT)
          ++ "][maxsize:" ++ toString (jsOrNat cfg.maxsize DEFAULT_MAXSIZE)
          ++ "];" ++ "("
          ++ "node[\"payment:bitcoin\"=\"yes\"];"
          ++ "way[\"payment:bitcoin\"=\"yes\"];"
          ++ "relation[\"payment:bitcoin\"=\"yes\"];"
          ++ ");out center;") ∧
    (∀ bb : BoundingBox, cfg.boundingBox = some bb →
      buildQuery cfg =
        "[out:json][timeout:" ++ toString (jsOrNat cfg.timeout DEFAULT_TIMEOUT)
          ++ "][maxsize:" ++ toString (jsOrNat cfg.maxsize DEFAULT_MAXSIZE)
          ++ "];" ++ "("
          ++ "node[\"payment:bitcoin\"=\"yes\"]" ++ "(" ++ bb.south ++ "," ++ bb.west
            ++ "," ++ bb.north ++ "," ++ bb.east ++ ")" ++ ";"
          ++ "way[\"payment:bitcoin\"=\"yes\"]" ++ "(" ++ bb.south ++ "," ++ bb.west
            ++ "," ++ bb.north ++ "," ++ bb.east ++ ")" ++ ";"
          ++ "relation[\"payment:bitcoin\"=\"yes\"]" ++ "(" ++ bb.south ++ "," ++ bb.west
            ++ "," ++ bb.north ++ "," ++ bb.east ++ ")" ++ ";"
          ++ ");out center;") ∧
    overpassRequestTimeoutMs (some cfg) = jsOrNat cfg.timeout DEFAULT_TIMEOUT * 1000 ∧
    overpassRequestTimeoutMs none = 180000 := by
  refine ⟨?_, ?_, fun h => by simp [jsOrNat, h, DEFAULT_TIMEOUT], fun h => by simp [jsOrNat, h, DEFAULT_MAXSIZE],
    ?_, ?_, rfl, rfl⟩
  · rcases hbb : cfg.boundingBox with _ | bb
    · refine ⟨"[out:json]",
        "[maxsize:" ++ toString (jsOrNat cfg.maxsize DEFAULT_MAXSIZE)
          ++ "];(node[\"payment:bitcoin\"=\"yes\"];way[\"payment:bitcoin\"=\"yes\"];relation[\"payment:bitcoin\"=\"yes\"];);out center;", ?_⟩
      simp only [buildQuery, hbb, String.join, List.foldl, String.append_assoc]
      rfl
    · refine ⟨"[out:json]",
        "[maxsize:" ++ toString (jsOrNat cfg.maxsize DEFAULT_MAXSIZE)
          ++ "];(node[\"payment:bitcoin\"=\"yes\"](" ++ bb.south ++ "," ++ bb.west
          ++ "," ++ bb.north ++ "," ++ bb.east
          ++ ");way[\"payment:bitcoin\"=\"yes\"](" ++ bb.south ++ "," ++ bb.west
          ++ "," ++ bb.north ++ "," ++ bb.east
          ++ ");relation[\"payment:bitcoin\"=\"yes\"](" ++ bb.south ++ "," ++ bb.west
          ++ "," ++ bb.north ++ "," ++ bb.east ++ "););out center;", ?_⟩
      simp only [buildQuery, hbb, String.join, List.foldl, String.append_assoc]
      rfl
  · rcases hbb : cfg.boundingBox with _ | bb
    · refine ⟨"[out:json][timeout:" ++ toString (jsOrNat cfg.timeout DEFAULT_TIMEOUT) ++ "]",
        ";(node[\"payment:bitcoin\"=\"yes\"];way[\"payment:bitcoin\"=\"yes\"];relation[\"payment:bitcoin\"=\"yes\"];);out center;", ?_⟩
      simp only [buildQuery, hbb, String.join, List.foldl, String.append_assoc]
      rfl
    · refine ⟨"[out:json][timeout:" ++ toString (jsOrNat cfg.timeout DEFAULT_TIMEOUT) ++ "]",
        ";(node[\"payment:bitcoin\"=\"yes\"](" ++ bb.south ++ "," ++ bb.west
          ++ "," ++ bb.north ++ "," ++ bb.east
          ++ ");way[\"payment:bitcoin\"=\"yes\"](" ++ bb.south ++ "," ++ bb.west
          ++ "," ++ bb.north ++ "," ++ bb.east
          ++ ");relation[\"payment:bitcoin\"=\"yes\"](" ++ bb.south ++ "," ++ bb.west
          ++ "," ++ bb.north ++ "," ++ bb.east ++ "););out center;", ?_⟩
      simp only [buildQuery, hbb, String.join, List.foldl, String.append_assoc]
      rfl
  · intro hbb
    simp only [buildQuery, hbb, String.join, List.foldl, String.append_assoc]
    rfl
  · intro bb hbb
    simp only [buildQuery, hbb, String.join, List.foldl, String.append_assoc]
    rfl

/-- Witness for C7: the default configuration yields the global query
with the default budgets, and a 300 s timeout yields a 300000 ms request
timeout. -/
theorem overpass_query_budgets_witness :
    buildQuery ⟨none, none, none⟩ =
      "[out:json][timeout:180][maxsize:1073741824];(node[\"payment:bitcoin\"=\"yes\"];way[\"payment:bitcoin\"=\"yes\"];relation[\"payment:bitcoin\"=\"yes\"];);out center;" ∧
    overpassRequestTimeoutMs (some ⟨some 300, some 2147483648, none⟩) = 300000 := by
  constructor
  · exact ((overpass_query_budgets ⟨none, none, none⟩).2.2.2.2.1 rfl).trans (by rfl)
  · exact ((overpass_query_budgets ⟨some 300, some 2147483648, none⟩).2.2.2.2.2.2.1).trans
      (by decide)
